import Mathlib

/-!
Verification of the client-side data layer of the `grab-some-apis` monorepo:
query-key normalization and cursor-pagination extractors
(`apps/web/src/hooks/use-rickandmorty-queries.ts`), the NASA date store
(`apps/web/src/stores/nasa-store.ts`), the adjacent-date prefetch policy
(`apps/web/src/hooks/use-nasa-queries.ts`), and the API-client fetch wrappers
(`nasa-api.ts`, `rickandmorty-api.ts`, `giphy-api.ts`).

JavaScript machine numbers appearing here are integer character IDs and page
numbers; they are modelled as `Nat`/`Int`.  JavaScript strings are ASCII in
every value this layer manipulates, so Lean `String` (code-point lexicographic
`<`, matching JS code-unit comparison on ASCII) is a faithful model.
-/

/-! ## JavaScript decimal rendering of natural numbers

`Number.prototype.toString` (radix 10) on a non-negative integer produces its
decimal digit string.  `decRenderAux` is a fuel-indexed structural recursion so
that it both evaluates by `decide` and supports induction. -/

/-- Most-significant-first decimal digits of `n`; `fuel` bounds the recursion
depth and is irrelevant once it exceeds `n` (`decRenderAux_fuel`). -/
def decRenderAux : Nat → Nat → List Char
  | 0, _ => []
  | fuel + 1, n =>
    if n < 10 then [Nat.digitChar n]
    else decRenderAux fuel (n / 10) ++ [Nat.digitChar (n % 10)]

/-- Decimal digit list of `n`, as JS `String(n)` produces for integer `n ≥ 0`. -/
def jsDigits (n : Nat) : List Char := decRenderAux (n + 1) n

/-- JS `String(n)` / `n.toString()` for a non-negative integer `n`. -/
def jsNatToString (n : Nat) : String := ⟨jsDigits n⟩

theorem decRenderAux_fuel :
    ∀ f₁ : Nat, ∀ f₂ n : Nat, n < f₁ → n < f₂ →
      decRenderAux f₁ n = decRenderAux f₂ n := by
  intro f₁
  induction f₁ with
  | zero => intro f₂ n h₁ _; omega
  | succ f ih =>
    intro f₂ n h₁ h₂
    cases f₂ with
    | zero => omega
    | succ f' =>
      show decRenderAux (f + 1) n = decRenderAux (f' + 1) n
      simp only [decRenderAux]
      by_cases h : n < 10
      · simp [h]
      · have hdiv : n / 10 < n := Nat.div_lt_self (by omega) (by omega)
        simp only [h, if_false]
        rw [ih f' (n / 10) (by omega) (by omega)]

theorem jsDigits_unfold (n : Nat) :
    jsDigits n =
      if n < 10 then [Nat.digitChar n]
      else jsDigits (n / 10) ++ [Nat.digitChar (n % 10)] := by
  show decRenderAux (n + 1) n = _
  simp only [decRenderAux]
  by_cases h : n < 10
  · simp [h]
  · have hdiv : n / 10 < n := Nat.div_lt_self (by omega) (by omega)
    simp only [h, if_false]
    rw [decRenderAux_fuel n (n / 10 + 1) (n / 10) (by omega) (by omega)]
    rfl

theorem jsDigits_ne_nil (n : Nat) : jsDigits n ≠ [] := by
  rw [jsDigits_unfold]
  by_cases h : n < 10 <;> simp [h]

theorem digitChar_inj_lt10 {m n : Nat} (hm : m < 10) (hn : n < 10)
    (h : Nat.digitChar m = Nat.digitChar n) : m = n := by
  interval_cases m <;> interval_cases n <;> first | rfl | (exfalso; revert h; decide)

theorem digitChar_ne_comma {n : Nat} (hn : n < 10) : Nat.digitChar n ≠ ',' := by
  interval_cases n <;> decide

theorem digitChar_isDigit {n : Nat} (hn : n < 10) : (Nat.digitChar n).isDigit = true := by
  interval_cases n <;> decide

theorem jsDigits_no_comma (n : Nat) : ∀ c ∈ jsDigits n, c ≠ ',' := by
  induction n using Nat.strong_induction_on with
  | _ n ih =>
    rw [jsDigits_unfold]
    by_cases h : n < 10
    · simp only [h, if_true, List.mem_singleton]
      rintro c rfl
      exact digitChar_ne_comma h
    · simp only [h, if_false, List.mem_append, List.mem_singleton]
      rintro c (hc | rfl)
      · exact ih (n / 10) (Nat.div_lt_self (by omega) (by omega)) c hc
      · exact digitChar_ne_comma (Nat.mod_lt n (by omega))

theorem jsDigits_inj : ∀ m n : Nat, jsDigits m = jsDigits n → m = n := by
  intro m
  induction m using Nat.strong_induction_on with
  | _ m ih =>
    intro n h
    rw [jsDigits_unfold m, jsDigits_unfold n] at h
    by_cases hm : m < 10 <;> by_cases hn : n < 10
    · simp only [hm, hn, if_true, List.cons.injEq] at h
      exact digitChar_inj_lt10 hm hn h.1
    · exfalso
      simp only [hm, hn, if_true, if_false] at h
      have hlen := congrArg List.length h
      simp only [List.length_append, List.length_singleton, List.length_cons] at hlen
      exact jsDigits_ne_nil (n / 10) (List.length_eq_zero.mp (by omega))
    · exfalso
      simp only [hm, hn, if_true, if_false] at h
      have hlen := congrArg List.length h
      simp only [List.length_append, List.length_singleton, List.length_cons] at hlen
      exact jsDigits_ne_nil (m / 10) (List.length_eq_zero.mp (by omega))
    · simp only [hm, hn, if_false] at h
      have hrev := congrArg List.reverse h
      simp only [List.reverse_append, List.reverse_cons, List.reverse_nil,
        List.nil_append, List.singleton_append, List.cons.injEq] at hrev
      have hmod : m % 10 = n % 10 :=
        digitChar_inj_lt10 (Nat.mod_lt m (by omega)) (Nat.mod_lt n (by omega)) hrev.1
      have hdivEq : jsDigits (m / 10) = jsDigits (n / 10) :=
        List.reverse_injective hrev.2
      have hdiv : m / 10 = n / 10 :=
        ih (m / 10) (Nat.div_lt_self (by omega) (by omega)) (n / 10) hdivEq
      omega

theorem jsNatToString_inj : Function.Injective jsNatToString := by
  intro m n h
  exact jsDigits_inj m n (congrArg String.data h)

theorem jsNatToString_ne_empty (n : Nat) : jsNatToString n ≠ "" := by
  intro h
  exact jsDigits_ne_nil n (congrArg String.data h)

/-! ## WHATWG URL model

`getNextPageParam` / `getPreviousPageParam` call `new URL(str)` and
`url.searchParams.get('page')`.  `parseURL` models the parts of WHATWG URL
parsing these cursors exercise: a URL string must begin with a valid scheme
(`[A-Za-z][A-Za-z0-9+.-]*`) followed by `:`, else the constructor throws a
`TypeError`; the query is the text between the first `?` and a `#`, split on
`&` into `key=value` pairs (empty pieces skipped), and `get` returns the value
of the first pair with the given key.  Percent-decoding is not modelled (the
page cursors the API emits are plain digits). -/

/-- Splits a character list at the first occurrence of `c`; `none` when `c`
does not occur. -/
def splitAtChar (c : Char) : List Char → Option (List Char × List Char)
  | [] => none
  | x :: xs =>
    if x = c then some ([], xs)
    else (splitAtChar c xs).map fun p => (x :: p.1, p.2)

/-- Splits a character list on every occurrence of `c` (always non-empty). -/
def splitAllChar (c : Char) : List Char → List (List Char)
  | [] => [[]]
  | x :: xs =>
    match splitAllChar c xs with
    | [] => [[x]]
    | h :: t => if x = c then [] :: h :: t else (x :: h) :: t

/-- Valid non-leading character of a URL scheme. -/
def isSchemeChar (c : Char) : Bool :=
  c.isAlpha || c.isDigit || c == '+' || c == '-' || c == '.'

/-- The outcome of `new URL(str)`: the scheme, everything after the `:`, and
the decomposed query string reachable through `searchParams`. -/
structure ParsedURL where
  scheme : String
  afterScheme : String
  searchParams : List (String × String)
deriving DecidableEq, Repr

/-- One `key=value` piece of a query string (`key` alone means value `""`). -/
def parseQueryPair (piece : List Char) : String × String :=
  match splitAtChar '=' piece with
  | none => (⟨piece⟩, "")
  | some p => (⟨p.1⟩, ⟨p.2⟩)

/-- The query-pair list `URLSearchParams` exposes for the text after the
scheme: text between the first `?` and any `#`, split on `&`, empty pieces
skipped. -/
def searchParamsOf (rest : List Char) : List (String × String) :=
  match splitAtChar '?' rest with
  | none => []
  | some q =>
    let query := match splitAtChar '#' q.2 with
      | none => q.2
      | some h => h.1
    ((splitAllChar '&' query).filter (· ≠ [])).map parseQueryPair

/-- `new URL(s)`: `none` models the thrown `TypeError` on an unparsable URL
string (no `:`-terminated valid scheme). -/
def parseURL (s : String) : Option ParsedURL :=
  match splitAtChar ':' s.data with
  | none => none
  | some p =>
    match p.1 with
    | [] => none
    | c :: cs =>
      if c.isAlpha && cs.all isSchemeChar then
        some ⟨⟨c :: cs⟩, ⟨p.2⟩, searchParamsOf p.2⟩
      else none

/-- `url.searchParams.get(name)`: value of the first pair with key `name`,
`none` for JS `null`. -/
def getParam (url : ParsedURL) (name : String) : Option String :=
  (url.searchParams.find? fun p => p.1 == name).map fun p => p.2

/-! ## `parseInt` and the infinite-query page cursors -/

/-- Digit value of an ASCII digit character. -/
def digitVal (c : Char) : Nat := c.toNat - 48

/-- Numeric value of a most-significant-first ASCII digit list. -/
def digitsVal (cs : List Char) : Nat := cs.foldl (fun acc c => 10 * acc + digitVal c) 0

/-- `parseInt(s, 10)`: skip leading whitespace, read an optional sign and then
leading decimal digits; `none` models the result `NaN` (no digits). -/
def jsParseInt (s : String) : Option Int :=
  let cs := s.data.dropWhile fun c => c.isWhitespace
  match cs with
  | '-' :: rest =>
    let ds := rest.takeWhile fun c => c.isDigit
    if ds = [] then none else some (-(digitsVal ds : Int))
  | '+' :: rest =>
    let ds := rest.takeWhile fun c => c.isDigit
    if ds = [] then none else some (digitsVal ds : Int)
  | _ =>
    let ds := cs.takeWhile fun c => c.isDigit
    if ds = [] then none else some (digitsVal ds : Int)

/-- The value an infinite-query page extractor hands back to the query
library: `undefined` ("no further page"), a page number, or `NaN`
(`parseInt` failed on a non-numeric cursor). -/
inductive PageCursor where
  | jsUndefined : PageCursor
  | nan : PageCursor
  | page (n : Int) : PageCursor
deriving DecidableEq, Repr

/-- `info` block of a Rick and Morty paginated response
(`RickAndMortyPagination` in `types/rickandmorty.ts`); `next`/`prev` are
`string | null | undefined`, both nullish cases collapsed to `none`. -/
structure RickAndMortyPagination where
  count : Nat
  pages : Nat
  next : Option String
  prev : Option String
deriving DecidableEq, Repr

/-- A paginated response envelope `{ info, results }` as consumed by the
extractors; `α` is the per-resource result type. -/
structure PageEnvelope (α : Type) where
  info : RickAndMortyPagination
  results : Option (List α)

/-- The `getNextPageParam` closure shared verbatim by the three infinite-query
hooks (characters, episodes, locations).  `Except.error` models the exception
`new URL` throws; the guard `if (lastPage.info.next)` is JS truthiness, so a
missing or empty `next` yields `undefined`, as does a cursor whose `page`
query parameter is missing or empty. -/
def getNextPageParam {α : Type} (lastPage : PageEnvelope α) : Except String PageCursor :=
  match lastPage.info.next with
  | some nextUrl =>
    if nextUrl ≠ "" then
      match parseURL nextUrl with
      | none => .error "TypeError: Invalid URL"
      | some url =>
        match getParam url "page" with
        | some nextPage =>
          if nextPage ≠ "" then
            match jsParseInt nextPage with
            | some n => .ok (.page n)
            | none => .ok .nan
          else .ok .jsUndefined
        | none => .ok .jsUndefined
    else .ok .jsUndefined
  | none => .ok .jsUndefined

/-- The `getPreviousPageParam` closure shared verbatim by the three
infinite-query hooks; identical to `getNextPageParam` but reading
`firstPage.info.prev`. -/
def getPreviousPageParam {α : Type} (firstPage : PageEnvelope α) : Except String PageCursor :=
  match firstPage.info.prev with
  | some prevUrl =>
    if prevUrl ≠ "" then
      match parseURL prevUrl with
      | none => .error "TypeError: Invalid URL"
      | some url =>
        match getParam url "page" with
        | some prevPage =>
          if prevPage ≠ "" then
            match jsParseInt prevPage with
            | some n => .ok (.page n)
            | none => .ok .nan
          else .ok .jsUndefined
        | none => .ok .jsUndefined
    else .ok .jsUndefined
  | none => .ok .jsUndefined



/-! ## JS string comparison

JavaScript compares strings by UTF-16 code units, lexicographically.  Every
string this layer compares is ASCII, where code units and code points agree,
so comparing `Char`s is faithful.  The comparison is defined structurally so
that concrete instances evaluate inside the kernel. -/

/-- Lexicographic strict comparison of character lists, as JS `<` compares
strings. -/
def jsCharsLT : List Char → List Char → Bool
  | [], [] => false
  | [], _ :: _ => true
  | _ :: _, [] => false
  | a :: as, b :: bs => if a < b then true else if b < a then false else jsCharsLT as bs

/-- JS `a < b` on strings. -/
def jsStringLT (a b : String) : Bool := jsCharsLT a.data b.data

/-- JS `a <= b` on strings (total: `a <= b` iff not `b < a`). -/
def jsStringLE (a b : String) : Bool := !jsStringLT b a

theorem jsCharsLT_irrefl : ∀ as : List Char, jsCharsLT as as = false := by
  intro as
  induction as with
  | nil => rfl
  | cons a as ih => simp [jsCharsLT, ih]

theorem jsCharsLT_trans :
    ∀ {as bs cs : List Char}, jsCharsLT as bs = true → jsCharsLT bs cs = true →
      jsCharsLT as cs = true := by
  intro as
  induction as with
  | nil =>
    intro bs cs h₁ h₂
    cases bs with
    | nil => exact absurd h₁ (by simp [jsCharsLT])
    | cons b bs =>
      cases cs with
      | nil => exact absurd h₂ (by simp [jsCharsLT])
      | cons c cs => rfl
  | cons a as ih =>
    intro bs cs h₁ h₂
    cases bs with
    | nil => exact absurd h₁ (by simp [jsCharsLT])
    | cons b bs =>
      cases cs with
      | nil => exact absurd h₂ (by simp [jsCharsLT])
      | cons c cs =>
        simp only [jsCharsLT] at h₁ h₂ ⊢
        rcases lt_trichotomy a b with hab | hab | hab <;>
          rcases lt_trichotomy b c with hbc | hbc | hbc
        · simp [lt_trans hab hbc]
        · subst hbc; simp [hab]
        · rcases lt_trichotomy a c with hac | hac | hac
          · simp [hac]
          · exfalso; subst hac
            simp [hbc, asymm hbc] at h₂
          · exfalso
            simp [hbc, asymm hbc] at h₂
        · subst hab; simp [hbc]
        · subst hab; subst hbc
          simp only [lt_irrefl, if_false] at h₁ h₂ ⊢
          exact ih h₁ h₂
        · exfalso; subst hab
          simp [hbc, asymm hbc] at h₂
        · exfalso
          simp [hab, asymm hab] at h₁
        · exfalso; subst hbc
          simp [hab, asymm hab] at h₁
        · exfalso
          simp [hab, asymm hab] at h₁

theorem jsCharsLT_connex :
    ∀ {as bs : List Char}, jsCharsLT as bs = false → jsCharsLT bs as = false → as = bs := by
  intro as
  induction as with
  | nil =>
    intro bs h₁ _
    cases bs with
    | nil => rfl
    | cons b bs => exact absurd h₁ (by simp [jsCharsLT])
  | cons a as ih =>
    intro bs h₁ h₂
    cases bs with
    | nil => exact absurd h₂ (by simp [jsCharsLT])
    | cons b bs =>
      simp only [jsCharsLT] at h₁ h₂
      rcases lt_trichotomy a b with hab | hab | hab
      · simp [hab] at h₁
      · subst hab
        simp only [lt_irrefl, if_false] at h₁ h₂
        rw [ih h₁ h₂]
      · simp [hab] at h₂

theorem jsStringLE_total (a b : String) : jsStringLE a b || jsStringLE b a := by
  simp only [jsStringLE, jsStringLT, Bool.or_eq_true, Bool.not_eq_true']
  by_cases h : jsCharsLT b.data a.data = false
  · exact Or.inl h
  · right
    simp only [Bool.not_eq_false] at h
    cases hc : jsCharsLT a.data b.data
    · rfl
    · exfalso
      have := jsCharsLT_trans h hc
      rw [jsCharsLT_irrefl] at this
      exact Bool.false_ne_true this

theorem jsStringLE_trans {a b c : String} (h₁ : jsStringLE a b) (h₂ : jsStringLE b c) :
    jsStringLE a c := by
  simp only [jsStringLE, jsStringLT, Bool.not_eq_true'] at h₁ h₂ ⊢
  cases hc : jsCharsLT c.data a.data
  · rfl
  · exfalso
    cases hab : jsCharsLT a.data b.data
    · have he : a.data = b.data := jsCharsLT_connex hab h₁
      rw [he, h₂] at hc
      exact Bool.false_ne_true hc
    · have hcb := jsCharsLT_trans hc hab
      rw [h₂] at hcb
      exact Bool.false_ne_true hcb

theorem jsStringLE_antisymm {a b : String} (h₁ : jsStringLE a b) (h₂ : jsStringLE b a) :
    a = b := by
  simp only [jsStringLE, jsStringLT, Bool.not_eq_true'] at h₁ h₂
  exact congrArg String.mk (jsCharsLT_connex h₂ h₁)

/-! ## Query-key builder `rickandmortyKeys.charactersByIds`

`charactersByIds` normalizes `params.ids` with `ids.sort().join(',')`.  The
JavaScript default `Array.prototype.sort` comparator converts elements to
strings and compares them lexicographically by code units, and the sort is
required to be stable; `jsSortIds` models it as a stable (insertion) sort
under that comparator.  `.join(',')` is `joinComma`.  Character IDs are the
naturals of the `number[]` field `ids`. -/

/-- The JS default sort comparator on numbers: lexicographic comparison of
their decimal string renderings. -/
def jsStrLE (a b : Nat) : Prop := jsStringLE (jsNatToString a) (jsNatToString b) = true

instance jsStrLE.decidableRel : DecidableRel jsStrLE := fun a b =>
  inferInstanceAs (Decidable (jsStringLE (jsNatToString a) (jsNatToString b) = true))

instance jsStrLE.isTotal : IsTotal Nat jsStrLE :=
  ⟨fun a b => by
    have h := jsStringLE_total (jsNatToString a) (jsNatToString b)
    simp only [Bool.or_eq_true] at h
    exact h⟩

instance jsStrLE.isTrans : IsTrans Nat jsStrLE :=
  ⟨fun _ _ _ h₁ h₂ => jsStringLE_trans h₁ h₂⟩

instance jsStrLE.isAntisymm : IsAntisymm Nat jsStrLE :=
  ⟨fun _ _ h₁ h₂ => jsNatToString_inj (jsStringLE_antisymm h₁ h₂)⟩

/-- `ids.sort()` under the default comparator (a stable comparison sort). -/
def jsSortIds (ids : List Nat) : List Nat := ids.insertionSort jsStrLE

/-- `Array.prototype.join(',')`. -/
def joinComma : List String → String
  | [] => ""
  | [s] => s
  | s :: t :: rest => s ++ "," ++ joinComma (t :: rest)

/-- `Array.isArray(ids) ? ids.sort().join(',') : ids` — the normalized key
component; a non-array (`null`/`undefined`) `ids` passes through as the
nullish component `none`. -/
def normalizedIds (ids : Option (List Nat)) : Option String :=
  ids.map fun l => joinComma ((jsSortIds l).map jsNatToString)

/-- `rickandmortyKeys.charactersByIds`: the cache key
`['rickandmorty', 'characters', 'byIds', normalizedIds]`, a tuple of strings
whose last component may be nullish. -/
def charactersByIds (ids : Option (List Nat)) : List (Option String) :=
  [some "rickandmorty", some "characters", some "byIds", normalizedIds ids]



theorem jsSortIds_perm (l : List Nat) : (jsSortIds l).Perm l := List.perm_insertionSort jsStrLE l

theorem jsSortIds_sorted (l : List Nat) : (jsSortIds l).Sorted jsStrLE :=
  List.sorted_insertionSort jsStrLE l

theorem jsSortIds_eq_of_perm {l₁ l₂ : List Nat} (h : l₁.Perm l₂) :
    jsSortIds l₁ = jsSortIds l₂ :=
  List.eq_of_perm_of_sorted
    ((jsSortIds_perm l₁).trans (h.trans (jsSortIds_perm l₂).symm))
    (jsSortIds_sorted l₁) (jsSortIds_sorted l₂)

/-! Injectivity of `.join(',')` on lists of non-empty comma-free strings. -/

theorem append_comma_inj :
    ∀ {a₁ : List Char} {b₁ a₂ b₂ : List Char},
      ',' ∉ a₁ → ',' ∉ a₂ →
      a₁ ++ ',' :: b₁ = a₂ ++ ',' :: b₂ → a₁ = a₂ ∧ b₁ = b₂ := by
  intro a₁
  induction a₁ with
  | nil =>
    intro b₁ a₂ b₂ _ h₂ h
    cases a₂ with
    | nil => simpa using h
    | cons c cs =>
      exfalso
      simp only [List.nil_append, List.cons_append, List.cons.injEq] at h
      exact h₂ (h.1 ▸ List.mem_cons_self c cs)
  | cons x xs ih =>
    intro b₁ a₂ b₂ h₁ h₂ h
    cases a₂ with
    | nil =>
      exfalso
      simp only [List.cons_append, List.nil_append, List.cons.injEq] at h
      exact h₁ (h.1 ▸ List.mem_cons_self x xs)
    | cons c cs =>
      simp only [List.cons_append, List.cons.injEq] at h
      obtain ⟨rfl, h⟩ := h
      have hrec := ih (fun hm => h₁ (List.mem_cons_of_mem _ hm))
        (fun hm => h₂ (List.mem_cons_of_mem _ hm)) h
      exact ⟨by rw [hrec.1], hrec.2⟩

/-- A string is "comma-clean" when it is non-empty and contains no comma. -/
def CommaClean (s : String) : Prop := s ≠ "" ∧ ',' ∉ s.data

theorem data_joinComma_cons (s t : String) (rest : List String) :
    (joinComma (s :: t :: rest)).data =
      s.data ++ ',' :: (joinComma (t :: rest)).data := by
  show (s ++ "," ++ joinComma (t :: rest)).data = _
  simp [String.data_append]

theorem joinComma_ne_empty {s : String} {rest : List String} (hs : s ≠ "") :
    joinComma (s :: rest) ≠ "" := by
  cases rest with
  | nil => exact hs
  | cons t r =>
    intro h
    have hd := congrArg String.data h
    rw [data_joinComma_cons] at hd
    have := congrArg List.length hd
    simp [List.length_append] at this

theorem joinComma_inj :
    ∀ l₁ l₂ : List String, (∀ s ∈ l₁, CommaClean s) → (∀ s ∈ l₂, CommaClean s) →
      joinComma l₁ = joinComma l₂ → l₁ = l₂ := by
  intro l₁
  induction l₁ with
  | nil =>
    intro l₂ _ h₂ h
    cases l₂ with
    | nil => rfl
    | cons s rest =>
      exact absurd h.symm (joinComma_ne_empty (h₂ s (List.mem_cons_self s rest)).1)
  | cons s₁ rest₁ ih =>
    intro l₂ h₁ h₂ h
    cases l₂ with
    | nil =>
      exact absurd h (joinComma_ne_empty (h₁ s₁ (List.mem_cons_self s₁ rest₁)).1)
    | cons s₂ rest₂ =>
      match rest₁, rest₂ with
      | [], [] => simpa [joinComma] using h
      | [], t₂ :: r₂ =>
        exfalso
        have hd : s₁.data = s₂.data ++ ',' :: (joinComma (t₂ :: r₂)).data := by
          have hdd := congrArg String.data h
          rwa [data_joinComma_cons] at hdd
        exact (h₁ s₁ (List.mem_cons_self s₁ _)).2
          (hd ▸ List.mem_append.mpr (Or.inr (List.mem_cons_self ',' _)))
      | t₁ :: r₁, [] =>
        exfalso
        have hd : s₂.data = s₁.data ++ ',' :: (joinComma (t₁ :: r₁)).data := by
          have hdd := congrArg String.data h.symm
          rwa [data_joinComma_cons] at hdd
        exact (h₂ s₂ (List.mem_cons_self s₂ _)).2
          (hd ▸ List.mem_append.mpr (Or.inr (List.mem_cons_self ',' _)))
      | t₁ :: r₁, t₂ :: r₂ =>
        have hd : s₁.data ++ ',' :: (joinComma (t₁ :: r₁)).data =
            s₂.data ++ ',' :: (joinComma (t₂ :: r₂)).data := by
          have hdd := congrArg String.data h
          rwa [data_joinComma_cons, data_joinComma_cons] at hdd
        have hsplit := append_comma_inj (h₁ s₁ (List.mem_cons_self s₁ _)).2
          (h₂ s₂ (List.mem_cons_self s₂ _)).2 hd
        have hs : s₁ = s₂ := congrArg String.mk hsplit.1
        have hjoin : joinComma (t₁ :: r₁) = joinComma (t₂ :: r₂) :=
          congrArg String.mk hsplit.2
        have hrest : t₁ :: r₁ = t₂ :: r₂ :=
          ih (t₂ :: r₂) (fun x hx => h₁ x (List.mem_cons_of_mem _ hx))
            (fun x hx => h₂ x (List.mem_cons_of_mem _ hx)) hjoin
        rw [hs, hrest]

theorem normalizedIds_inj_of_some {l₁ l₂ : List Nat}
    (h : normalizedIds (some l₁) = normalizedIds (some l₂)) : l₁.Perm l₂ := by
  simp only [normalizedIds, Option.map_some', Option.some.injEq] at h
  have hclean : ∀ l : List Nat, ∀ s ∈ (jsSortIds l).map jsNatToString, CommaClean s := by
    intro l s hs
    obtain ⟨n, _, rfl⟩ := List.mem_map.mp hs
    exact ⟨jsNatToString_ne_empty n, fun hc => jsDigits_no_comma n ',' hc rfl⟩
  have hmap : (jsSortIds l₁).map jsNatToString = (jsSortIds l₂).map jsNatToString :=
    joinComma_inj _ _ (hclean l₁) (hclean l₂) h
  have hsort : jsSortIds l₁ = jsSortIds l₂ :=
    List.map_injective_iff.mpr jsNatToString_inj hmap
  exact (jsSortIds_perm l₁).symm.trans (hsort ▸ jsSortIds_perm l₂)

/-! ## Claims about the query keys and page cursors -/

/-- **C6**: for every list of character IDs and every permutation of it,
`rickandmortyKeys.charactersByIds` produces the same normalized cache key. -/
theorem charactersByIds_perm_invariant {l₁ l₂ : List Nat} (h : l₁.Perm l₂) :
    charactersByIds (some l₁) = charactersByIds (some l₂) := by
  simp [charactersByIds, normalizedIds, jsSortIds_eq_of_perm h]

/-- Witness for C6: the ID lists `[3,1,2]` and `[1,2,3]` map to one cache key. -/
theorem charactersByIds_perm_invariant_witness :
    charactersByIds (some [3, 1, 2]) = charactersByIds (some [1, 2, 3]) :=
  charactersByIds_perm_invariant (by decide)

/-- **C7**: `charactersByIds` is injective on logically distinct inputs — two
ID lists that are not permutations of one another (distinct multisets) always
produce distinct normalized keys. -/
theorem charactersByIds_injective_on_multisets {l₁ l₂ : List Nat} (h : ¬ l₁.Perm l₂) :
    charactersByIds (some l₁) ≠ charactersByIds (some l₂) := by
  intro he
  apply h
  apply normalizedIds_inj_of_some
  simpa [charactersByIds] using he

/-- Witness for C7: the ID lists `[1]` and `[2]` get distinct keys. -/
theorem charactersByIds_injective_on_multisets_witness :
    charactersByIds (some [1]) ≠ charactersByIds (some [2]) :=
  charactersByIds_injective_on_multisets (by decide)

/-- **C10**: the "sorted before joining" normalization orders IDs
lexicographically by their decimal string renderings, not numerically: the
joined ID strings are always in lexicographic order, and in particular
`[2, 10]` normalizes to the key component `"10,2"`, not `"2,10"`. -/
theorem charactersByIds_sorts_by_decimal_strings :
    (∀ l : List Nat,
      ((jsSortIds l).map jsNatToString).Sorted fun a b => jsStringLE a b = true) ∧
    normalizedIds (some [2, 10]) = some "10,2" ∧
    normalizedIds (some [2, 10]) ≠ some "2,10" := by
  refine ⟨?_, by decide, by decide⟩
  intro l
  exact List.Pairwise.map jsNatToString (fun a b h => h) (jsSortIds_sorted l)

/-- **C5**: an envelope whose `next` URL carries the page query parameter
`"3"` makes `getNextPageParam` return the page number `3`; an envelope with no
`next` field makes it return `undefined` ("no next page"). -/
theorem getNextPageParam_page3_and_absent (e₁ e₂ : PageEnvelope Unit) (s : String)
    (u : ParsedURL) :
    (e₁.info.next = some s → parseURL s = some u → getParam u "page" = some "3" →
      getNextPageParam e₁ = .ok (.page 3)) ∧
    (e₂.info.next = none → getNextPageParam e₂ = .ok .jsUndefined) := by
  constructor
  · intro h₁ h₂ h₃
    have hne : s ≠ "" := by
      rintro rfl
      rw [show parseURL "" = none from rfl] at h₂
      exact Option.noConfusion h₂
    simp only [getNextPageParam, h₁, h₂, h₃]
    rw [if_pos hne, if_pos (by decide : ("3" : String) ≠ "")]
    rfl
  · intro h₂
    simp only [getNextPageParam, h₂]

/-- Witness for C5 at a concrete Rick and Morty cursor URL. -/
theorem getNextPageParam_page3_and_absent_witness :
    getNextPageParam (α := Unit)
        ⟨⟨826, 42, some "https://rickandmortyapi.com/api/character?page=3", none⟩, none⟩ =
      .ok (.page 3) ∧
    getNextPageParam (α := Unit) ⟨⟨826, 42, none, none⟩, none⟩ = .ok .jsUndefined := by
  have h := getNextPageParam_page3_and_absent
    ⟨⟨826, 42, some "https://rickandmortyapi.com/api/character?page=3", none⟩, none⟩
    ⟨⟨826, 42, none, none⟩, none⟩
    "https://rickandmortyapi.com/api/character?page=3"
    ⟨"https", "//rickandmortyapi.com/api/character?page=3", [("page", "3")]⟩
  exact ⟨h.1 rfl (by decide) rfl, h.2 rfl⟩

/-- **C1** (counterexample): on an envelope whose `next`/`prev` cursor is the
unparsable URL string `"not a url"`, the extractors do **not** return
`undefined` — `new URL` throws, modelled by `Except.error`, so the claim that
they "never raise and return undefined on unparsable URLs" fails. -/
theorem pageParamExtractors_unparsable_cex :
    getNextPageParam (α := Unit) ⟨⟨826, 42, some "not a url", some "not a url"⟩, none⟩ =
        .error "TypeError: Invalid URL" ∧
    getNextPageParam (α := Unit) ⟨⟨826, 42, some "not a url", some "not a url"⟩, none⟩ ≠
        .ok .jsUndefined ∧
    getPreviousPageParam (α := Unit) ⟨⟨826, 42, some "not a url", some "not a url"⟩, none⟩ =
        .error "TypeError: Invalid URL" ∧
    getPreviousPageParam (α := Unit) ⟨⟨826, 42, some "not a url", some "not a url"⟩, none⟩ ≠
        .ok .jsUndefined := by
  refine ⟨rfl, ?_, rfl, ?_⟩ <;> intro h <;> exact Except.noConfusion h

/-- **C1** (amended): a cursor URL that parses but carries no `page` query
parameter yields `undefined` ("no further page"); a non-empty cursor string
that is not a parsable URL makes the extractor raise (the `new URL`
`TypeError` propagates), for `next` and `prev` alike. -/
theorem pageParamExtractors_malformed_amended (e₁ e₂ e₃ e₄ : PageEnvelope Unit)
    (s₁ s₂ s₃ s₄ : String) (u₁ u₃ : ParsedURL) :
    (e₁.info.next = some s₁ → parseURL s₁ = some u₁ → getParam u₁ "page" = none →
      getNextPageParam e₁ = .ok .jsUndefined) ∧
    (e₂.info.next = some s₂ → s₂ ≠ "" → parseURL s₂ = none →
      getNextPageParam e₂ = .error "TypeError: Invalid URL") ∧
    (e₃.info.prev = some s₃ → parseURL s₃ = some u₃ → getParam u₃ "page" = none →
      getPreviousPageParam e₃ = .ok .jsUndefined) ∧
    (e₄.info.prev = some s₄ → s₄ ≠ "" → parseURL s₄ = none →
      getPreviousPageParam e₄ = .error "TypeError: Invalid URL") := by
  refine ⟨?_, ?_, ?_, ?_⟩
  · intro h₁ h₂ h₃
    have hne : s₁ ≠ "" := by
      rintro rfl
      rw [show parseURL "" = none from rfl] at h₂
      exact Option.noConfusion h₂
    simp only [getNextPageParam, h₁, h₂, h₃]
    rw [if_pos hne]
  · intro h₁ h₂ h₃
    simp only [getNextPageParam, h₁, h₃]
    rw [if_pos h₂]
  · intro h₁ h₂ h₃
    have hne : s₃ ≠ "" := by
      rintro rfl
      rw [show parseURL "" = none from rfl] at h₂
      exact Option.noConfusion h₂
    simp only [getPreviousPageParam, h₁, h₂, h₃]
    rw [if_pos hne]
  · intro h₁ h₂ h₃
    simp only [getPreviousPageParam, h₁, h₃]
    rw [if_pos h₂]

/-- Witness for the amended C1 at concrete malformed cursors. -/
theorem pageParamExtractors_malformed_amended_witness :
    getNextPageParam (α := Unit) ⟨⟨826, 42, some "https://a/path", none⟩, none⟩ =
        .ok .jsUndefined ∧
    getNextPageParam (α := Unit) ⟨⟨826, 42, some "not a url", none⟩, none⟩ =
        .error "TypeError: Invalid URL" ∧
    getPreviousPageParam (α := Unit) ⟨⟨826, 42, none, some "https://a/path"⟩, none⟩ =
        .ok .jsUndefined ∧
    getPreviousPageParam (α := Unit) ⟨⟨826, 42, none, some "not a url"⟩, none⟩ =
        .error "TypeError: Invalid URL" := by
  have h := pageParamExtractors_malformed_amended
    ⟨⟨826, 42, some "https://a/path", none⟩, none⟩
    ⟨⟨826, 42, some "not a url", none⟩, none⟩
    ⟨⟨826, 42, none, some "https://a/path"⟩, none⟩
    ⟨⟨826, 42, none, some "not a url"⟩, none⟩
    "https://a/path" "not a url" "https://a/path" "not a url"
    ⟨"https", "//a/path", []⟩ ⟨"https", "//a/path", []⟩
  exact ⟨h.1 rfl (by decide) rfl, h.2.1 rfl (by decide) (by decide),
    h.2.2.1 rfl (by decide) rfl, h.2.2.2 rfl (by decide) (by decide)⟩

/-! ## API-client fetch wrappers

`fetchAPOD` (`nasa-api.ts`) and `fetchRickAndMortyCharacters`
(`rickandmorty-api.ts`) wrap `fetch` in try/catch: a non-2xx response is
turned into a typed error object (`status`, `detail`), and any other exception
— the elapsed `AbortSignal.timeout`, DNS failure, connection refused, or a
body that fails to parse as JSON — is re-thrown as the same typed error with
status `500` and a fixed network-error message.  The Giphy client
(`giphy-api.ts`) has no such wrapper.  The transport is modelled as the
outcome `fetch` itself produced. -/

/-- Outcome of the underlying `fetch` call: either an HTTP response arrived
(with its status, the `detail` field when the body parses as a JSON error
document carrying a truthy string there, and the parsed JSON body for the
success path — `none` when `response.json()` would throw), or the request
never completed (elapsed timeout, DNS failure, connection refused). -/
inductive FetchEvent where
  | response (status : Nat) (detail : Option String) (body : Option String)
  | transportFailure
deriving DecidableEq, Repr

/-- `NASAAPIError`: the typed error `nasa-api.ts` throws (`status`, `detail`). -/
structure NASAAPIError where
  status : Nat
  detail : String
deriving DecidableEq, Repr

/-- Default error detail of `fetchAPOD` when the error body yields none. -/
def nasaDefaultDetail : String := "Failed to fetch NASA APOD data"

/-- The fixed detail `fetchAPOD` uses for any non-HTTP failure. -/
def nasaNetworkDetail : String := "Network error: Unable to connect to NASA API"

/-- `fetchAPOD`: on `response.ok` (status 200–299) return the parsed body; on
a non-ok status throw `NASAAPIError(status, body detail or default)`; any
other exception (timeout included) is re-thrown as
`NASAAPIError(500, network message)`. -/
def fetchAPOD (ev : FetchEvent) : Except NASAAPIError String :=
  match ev with
  | .response status detail body =>
    if 200 ≤ status ∧ status ≤ 299 then
      match body with
      | some data => .ok data
      | none => .error ⟨500, nasaNetworkDetail⟩
    else
      .error ⟨status, detail.getD nasaDefaultDetail⟩
  | .transportFailure => .error ⟨500, nasaNetworkDetail⟩

/-- `RickAndMortyAPIError`: the typed error `rickandmorty-api.ts` throws. -/
structure RickAndMortyAPIError where
  status : Nat
  detail : String
deriving DecidableEq, Repr

/-- `fetchRickAndMortyCharacters`: like `fetchAPOD` but with a fixed non-ok
detail (the error body is not parsed) and its own network message. -/
def fetchRickAndMortyCharacters (ev : FetchEvent) : Except RickAndMortyAPIError String :=
  match ev with
  | .response status _ body =>
    if 200 ≤ status ∧ status ≤ 299 then
      match body with
      | some data => .ok data
      | none => .error ⟨500, "Network error: Unable to connect to Rick and Morty API"⟩
    else
      .error ⟨status, "Failed to fetch Rick and Morty characters"⟩
  | .transportFailure =>
    .error ⟨500, "Network error: Unable to connect to Rick and Morty API"⟩

/-- The request options each client passes to its HTTP call, reduced to the
one field the spec talks about: whether an `AbortSignal.timeout(ms)` is
attached. -/
structure RequestOpts where
  timeoutMs : Option Nat
deriving DecidableEq, Repr

/-- `fetchAPOD` attaches `AbortSignal.timeout(CONFIG.nasa.timeout)`; the
config value is a parameter here. -/
def fetchAPODOpts (nasaTimeoutMs : Nat) : RequestOpts := ⟨some nasaTimeoutMs⟩

/-- `fetchRickAndMortyCharacters` attaches
`AbortSignal.timeout(CONFIG.api.timeout)`. -/
def fetchRickAndMortyCharactersOpts (apiTimeoutMs : Nat) : RequestOpts := ⟨some apiTimeoutMs⟩

/-- `translateToGif` calls `fetch(url)` with no options: no signal, no
timeout. -/
def translateToGifOpts : RequestOpts := ⟨none⟩

/-- `fetchRandomGif` calls `fetch(url)` with no options. -/
def fetchRandomGifOpts : RequestOpts := ⟨none⟩

/-- `fetchTrendingGifs` delegates to the Giphy SDK `gf.trending({offset,
limit, type})`; no timeout option exists in that call. -/
def fetchTrendingGifsOpts : RequestOpts := ⟨none⟩

/-- What a Giphy fetch function hands its caller: the `data` field of the
parsed body (no status check, any status), or the raw underlying exception
(`TypeError` from `fetch`, `SyntaxError` from `response.json()`) propagating
untouched — never a typed error object carrying an HTTP status. -/
inductive GiphyOutcome where
  | value (dataField : String)
  | rawException
deriving DecidableEq, Repr

/-- `translateToGif`: `fetch(url)` then `data = await response.json(); return
data.data` — no status check, no catch. -/
def translateToGif (ev : FetchEvent) : GiphyOutcome :=
  match ev with
  | .response _ _ (some doc) => .value doc
  | .response _ _ none => .rawException
  | .transportFailure => .rawException

/-- `fetchRandomGif`: same shape as `translateToGif` on its own endpoint. -/
def fetchRandomGif (ev : FetchEvent) : GiphyOutcome :=
  match ev with
  | .response _ _ (some doc) => .value doc
  | .response _ _ none => .rawException
  | .transportFailure => .rawException

/-! ## Claims about the fetch wrappers -/

/-- **C2** (counterexample): a run of `fetchAPOD` that times out and a run
that completes with HTTP 500 can produce **identical** error values — both
are `NASAAPIError` with status `500`, and when the 500 response's body carries
the network-error message as its `detail`, even the messages coincide — so
the caller cannot always tell the two apart. -/
theorem fetchAPOD_timeout_vs_500_cex :
    fetchAPOD .transportFailure =
      fetchAPOD (.response 500 (some "Network error: Unable to connect to NASA API") none) :=
  rfl

/-- **C2** (amended): `fetchAPOD` maps a timeout to
`NASAAPIError(500, network message)` and an HTTP 500 to `NASAAPIError(500,
body detail or default message)`; both carry status 500, so the caller can
distinguish the two error values only through the detail string, which works
exactly when the 500 response's extracted detail differs from the fixed
network-error message. -/
theorem fetchAPOD_timeout_vs_500_amended (detail body : Option String) :
    fetchAPOD .transportFailure = .error ⟨500, nasaNetworkDetail⟩ ∧
    fetchAPOD (.response 500 detail body) =
      .error ⟨500, detail.getD nasaDefaultDetail⟩ ∧
    (fetchAPOD (.response 500 detail body) = fetchAPOD .transportFailure ↔
      detail.getD nasaDefaultDetail = nasaNetworkDetail) := by
  refine ⟨rfl, rfl, ?_⟩
  constructor
  · intro h
    have : (⟨500, detail.getD nasaDefaultDetail⟩ : NASAAPIError) =
        ⟨500, nasaNetworkDetail⟩ := by
      have h' : (Except.error ⟨500, detail.getD nasaDefaultDetail⟩ :
          Except NASAAPIError String) = .error ⟨500, nasaNetworkDetail⟩ := h
      exact Except.error.inj h'
    exact congrArg NASAAPIError.detail this
  · intro h
    show (Except.error ⟨500, detail.getD nasaDefaultDetail⟩ :
        Except NASAAPIError String) = .error ⟨500, nasaNetworkDetail⟩
    rw [h]

/-- **C8** (counterexample): the Giphy fetch functions attach no timeout and
produce no typed error object — `translateToGif` resolves with the parsed
body even on HTTP 500, and surfaces a timeout as the raw exception with no
status — refuting "every API-client module applies a bounded timeout and
yields a typed error carrying an HTTP status and message". -/
theorem giphy_no_timeout_no_typed_error_cex :
    translateToGifOpts.timeoutMs = none ∧
    fetchRandomGifOpts.timeoutMs = none ∧
    fetchTrendingGifsOpts.timeoutMs = none ∧
    translateToGif (.response 500 none (some "gif-document")) = .value "gif-document" ∧
    translateToGif .transportFailure = .rawException ∧
    fetchRandomGif .transportFailure = .rawException :=
  ⟨rfl, rfl, rfl, rfl, rfl, rfl⟩

/-- **C8** (amended): the NASA and Rick and Morty clients attach an
`AbortSignal` timeout and normalize every failing outcome into a typed error
carrying the HTTP status (the response's own status for an API error, 500 for
transport failures) and a message; the Giphy fetch functions attach no
timeout, pass the body through without a status check, and let raw exceptions
propagate. -/
theorem apiClients_timeout_and_typed_errors_amended (nasaMs apiMs status : Nat)
    (detail body bodyR : Option String) :
    (fetchAPODOpts nasaMs).timeoutMs = some nasaMs ∧
    (fetchRickAndMortyCharactersOpts apiMs).timeoutMs = some apiMs ∧
    (¬ (200 ≤ status ∧ status ≤ 299) →
      fetchAPOD (.response status detail body) =
        .error ⟨status, detail.getD nasaDefaultDetail⟩ ∧
      fetchRickAndMortyCharacters (.response status detail bodyR) =
        .error ⟨status, "Failed to fetch Rick and Morty characters"⟩) ∧
    fetchAPOD .transportFailure = .error ⟨500, nasaNetworkDetail⟩ ∧
    fetchRickAndMortyCharacters .transportFailure =
      .error ⟨500, "Network error: Unable to connect to Rick and Morty API"⟩ ∧
    translateToGifOpts.timeoutMs = none ∧
    fetchRandomGifOpts.timeoutMs = none ∧
    fetchTrendingGifsOpts.timeoutMs = none ∧
    (∀ doc : String, translateToGif (.response status detail (some doc)) = .value doc) := by
  refine ⟨rfl, rfl, ?_, rfl, rfl, rfl, rfl, rfl, fun doc => rfl⟩
  intro hbad
  constructor
  · simp only [fetchAPOD, if_neg hbad]
  · simp only [fetchRickAndMortyCharacters, if_neg hbad]

/-- Witness for the amended C8 at a concrete failing status. -/
theorem apiClients_timeout_and_typed_errors_amended_witness :
    (fetchAPODOpts 10000).timeoutMs = some 10000 ∧
    fetchAPOD (.response 404 none none) = .error ⟨404, nasaDefaultDetail⟩ ∧
    fetchRickAndMortyCharacters (.response 404 none none) =
      .error ⟨404, "Failed to fetch Rick and Morty characters"⟩ := by
  have h := apiClients_timeout_and_typed_errors_amended 10000 5000 404 none none none
  have hbad := h.2.2.1 (by omega)
  exact ⟨h.1, by simpa [nasaDefaultDetail] using hbad.1, hbad.2⟩

/-! ## Calendar dates and ISO rendering

`nasa-store.ts` and the prefetch hook manipulate dates as `YYYY-MM-DD`
strings: `new Date(str)` parses them at UTC midnight, `setDate(getDate() ± 1)`
moves one day in the proleptic Gregorian calendar, and
`toISOString().split('T')[0]` renders back a zero-padded `YYYY-MM-DD` (for
years 0–9999).  The model fixes the timezone offset at 0 (UTC), where
`getDate`/`setDate` agree with the UTC calendar day. -/

/-- A calendar date (proleptic Gregorian, as JS `Date` uses at UTC). -/
structure CalDate where
  year : Nat
  month : Nat
  day : Nat
deriving DecidableEq, Repr

/-- Gregorian leap-year rule. -/
def isLeapYear (y : Nat) : Bool :=
  (y % 4 == 0 && y % 100 != 0) || y % 400 == 0

/-- Number of days in a month (month numbered 1–12; 0 outside that range). -/
def daysInMonth (y m : Nat) : Nat :=
  if m = 1 ∨ m = 3 ∨ m = 5 ∨ m = 7 ∨ m = 8 ∨ m = 10 ∨ m = 12 then 31
  else if m = 4 ∨ m = 6 ∨ m = 9 ∨ m = 11 then 30
  else if m = 2 then (if isLeapYear y then 29 else 28)
  else 0

/-- `setDate(getDate() + 1)`: the next calendar day. -/
def nextDay (d : CalDate) : CalDate :=
  if d.day < daysInMonth d.year d.month then ⟨d.year, d.month, d.day + 1⟩
  else if d.month < 12 then ⟨d.year, d.month + 1, 1⟩
  else ⟨d.year + 1, 1, 1⟩

/-- `setDate(getDate() - 1)`: the previous calendar day. -/
def prevDay (d : CalDate) : CalDate :=
  if 1 < d.day then ⟨d.year, d.month, d.day - 1⟩
  else if 1 < d.month then ⟨d.year, d.month - 1, daysInMonth d.year (d.month - 1)⟩
  else ⟨d.year - 1, 12, 31⟩

/-- A date JS would accept and re-render in plain `YYYY-MM-DD` form; the year
cap keeps `nextDay` inside the 4-digit range. -/
def ValidDate (d : CalDate) : Prop :=
  1 ≤ d.month ∧ d.month ≤ 12 ∧ 1 ≤ d.day ∧ d.day ≤ daysInMonth d.year d.month ∧
  1 ≤ d.year ∧ d.year ≤ 9998

instance ValidDate.decidable (d : CalDate) : Decidable (ValidDate d) :=
  inferInstanceAs (Decidable (1 ≤ d.month ∧ d.month ≤ 12 ∧ 1 ≤ d.day ∧
    d.day ≤ daysInMonth d.year d.month ∧ 1 ≤ d.year ∧ d.year ≤ 9998))

/-- Fixed-width, zero-padded decimal digits: the low `k` digits of `n`,
most-significant first. -/
def padDigits : Nat → Nat → List Char
  | 0, _ => []
  | k + 1, n => padDigits k (n / 10) ++ [Nat.digitChar (n % 10)]

/-- The `YYYY-MM-DD` date part of `Date.prototype.toISOString` (years
0–9999). -/
def toISO (d : CalDate) : String :=
  ⟨padDigits 4 d.year ++ '-' :: (padDigits 2 d.month ++ '-' :: padDigits 2 d.day)⟩

/-- Chronological strict order on calendar dates. -/
def dateLT (a b : CalDate) : Prop :=
  a.year < b.year ∨ (a.year = b.year ∧
    (a.month < b.month ∨ (a.month = b.month ∧ a.day < b.day)))

/-- Chronological order on calendar dates. -/
def dateLE (a b : CalDate) : Prop := dateLT a b ∨ a = b

instance dateLT.decidable (a b : CalDate) : Decidable (dateLT a b) :=
  inferInstanceAs (Decidable (a.year < b.year ∨ (a.year = b.year ∧
    (a.month < b.month ∨ (a.month = b.month ∧ a.day < b.day)))))

instance dateLE.decidable (a b : CalDate) : Decidable (dateLE a b) :=
  inferInstanceAs (Decidable (dateLT a b ∨ a = b))

theorem dateLE_iff_not_lt {a b : CalDate} : dateLE a b ↔ ¬ dateLT b a := by
  obtain ⟨y₁, m₁, d₁⟩ := a
  obtain ⟨y₂, m₂, d₂⟩ := b
  simp only [dateLE, dateLT, CalDate.mk.injEq]
  constructor
  · rintro (h | ⟨rfl, rfl, rfl⟩) <;> omega
  · intro h
    omega

/-! Lexicographic comparison of padded digit blocks tracks numeric order. -/

theorem padDigits_length (k n : Nat) : (padDigits k n).length = k := by
  induction k generalizing n with
  | zero => rfl
  | succ k ih => simp [padDigits, ih]

theorem jsCharsLT_singleton (a b : Char) :
    jsCharsLT [a] [b] = true ↔ a < b := by
  simp only [jsCharsLT]
  rcases lt_trichotomy a b with h | h | h
  · simp [h]
  · subst h; simp
  · simp [h, asymm h]

theorem digitChar_lt_iff {a b : Nat} (ha : a < 10) (hb : b < 10) :
    (Nat.digitChar a < Nat.digitChar b) ↔ a < b := by
  interval_cases a <;> interval_cases b <;> simp <;> decide

theorem char_eq_of_not_lt {a b : Char} (h₁ : ¬ a < b) (h₂ : ¬ b < a) : a = b :=
  le_antisymm (not_lt.mp h₂) (not_lt.mp h₁)

theorem jsCharsLT_append_eqlen :
    ∀ {l₁ l₂ : List Char} (r₁ r₂ : List Char), l₁.length = l₂.length →
    jsCharsLT (l₁ ++ r₁) (l₂ ++ r₂) =
      (jsCharsLT l₁ l₂ || (decide (l₁ = l₂) && jsCharsLT r₁ r₂)) := by
  intro l₁
  induction l₁ with
  | nil =>
    intro l₂ r₁ r₂ h
    cases l₂ with
    | nil => simp [jsCharsLT]
    | cons b bs => exact absurd h (by simp)
  | cons a as ih =>
    intro l₂ r₁ r₂ h
    cases l₂ with
    | nil => exact absurd h (by simp)
    | cons b bs =>
      simp only [List.cons_append, jsCharsLT]
      rcases lt_trichotomy a b with hab | hab | hab
      · simp [hab]
      · subst hab
        have hlen : as.length = bs.length := by simpa using h
        simp only [lt_irrefl, if_false, List.cons.injEq, true_and]
        exact ih r₁ r₂ hlen
      · have hne : a ≠ b := ne_of_gt hab
        simp [hab, not_lt_of_gt hab, hne]

/-- Splitting `m < n` through division and remainder by a positive `p`. -/
theorem div_mod_lt_iff {p m n : Nat} (hp : 0 < p) :
    m < n ↔ (m / p < n / p ∨ (m / p = n / p ∧ m % p < n % p)) := by
  have hm := Nat.div_add_mod m p
  have hn := Nat.div_add_mod n p
  have hmp : m % p < p := Nat.mod_lt m hp
  have hnp : n % p < p := Nat.mod_lt n hp
  constructor
  · intro h
    rcases Nat.lt_or_ge (m / p) (n / p) with h' | h'
    · exact Or.inl h'
    · have h₂ : m / p ≤ n / p := Nat.div_le_div_right (le_of_lt h)
      have he : m / p = n / p := le_antisymm h₂ h'
      refine Or.inr ⟨he, ?_⟩
      rw [← he] at hn
      omega
  · rintro (h | ⟨he, h⟩)
    · calc m < p * (m / p) + p := by omega
        _ = p * (m / p + 1) := by ring
        _ ≤ p * (n / p) := Nat.mul_le_mul_left p h
        _ ≤ n := by omega
    · rw [← he] at hn
      omega

theorem padDigits_lt_iff :
    ∀ {k m n : Nat}, m < 10 ^ k → n < 10 ^ k →
      (jsCharsLT (padDigits k m) (padDigits k n) = true ↔ m < n) := by
  intro k
  induction k with
  | zero =>
    intro m n hm hn
    simp only [pow_zero, Nat.lt_one_iff] at hm hn
    subst hm; subst hn
    simp [padDigits, jsCharsLT]
  | succ k ih =>
    intro m n hm hn
    have hmd : m / 10 < 10 ^ k := by
      apply Nat.div_lt_of_lt_mul
      rw [mul_comm, ← pow_succ]
      exact hm
    have hnd : n / 10 < 10 ^ k := by
      apply Nat.div_lt_of_lt_mul
      rw [mul_comm, ← pow_succ]
      exact hn
    show jsCharsLT (padDigits k (m / 10) ++ [Nat.digitChar (m % 10)])
        (padDigits k (n / 10) ++ [Nat.digitChar (n % 10)]) = true ↔ m < n
    rw [jsCharsLT_append_eqlen _ _ (by rw [padDigits_length, padDigits_length])]
    simp only [Bool.or_eq_true, Bool.and_eq_true, decide_eq_true_eq]
    rw [ih hmd hnd, jsCharsLT_singleton,
      digitChar_lt_iff (Nat.mod_lt m (by omega)) (Nat.mod_lt n (by omega))]
    constructor
    · rintro (h | ⟨he, h⟩)
      · omega
      · have hdiv : m / 10 = n / 10 := by
          rcases lt_trichotomy (m / 10) (n / 10) with h' | h' | h'
          · have hlt := (ih hmd hnd).mpr h'
            rw [he, jsCharsLT_irrefl] at hlt
            exact absurd hlt (by simp)
          · exact h'
          · have hlt := (ih hnd hmd).mpr h'
            rw [he, jsCharsLT_irrefl] at hlt
            exact absurd hlt (by simp)
        omega
    · intro h
      rcases Nat.lt_or_ge (m / 10) (n / 10) with h' | h'
      · exact Or.inl h'
      · have hdiv : m / 10 = n / 10 := by omega
        exact Or.inr ⟨by rw [hdiv], by omega⟩

theorem padDigits_inj {k m n : Nat} (hm : m < 10 ^ k) (hn : n < 10 ^ k)
    (h : padDigits k m = padDigits k n) : m = n := by
  rcases lt_trichotomy m n with h' | h' | h'
  · have := (padDigits_lt_iff hm hn).mpr h'
    rw [h, jsCharsLT_irrefl] at this
    exact absurd this (by simp)
  · exact h'
  · have := (padDigits_lt_iff hn hm).mpr h'
    rw [h, jsCharsLT_irrefl] at this
    exact absurd this (by simp)

/-- Bounds under which `toISO` renders each component at its fixed width. -/
def BoundedDate (d : CalDate) : Prop :=
  d.year < 10000 ∧ d.month < 100 ∧ d.day < 100

theorem toISO_lt_iff {a b : CalDate} (ha : BoundedDate a) (hb : BoundedDate b) :
    (jsStringLT (toISO a) (toISO b) = true) ↔ dateLT a b := by
  obtain ⟨hay, ham, had⟩ := ha
  obtain ⟨hby, hbm, hbd⟩ := hb
  have hay' : a.year < 10 ^ 4 := by norm_num; omega
  have hby' : b.year < 10 ^ 4 := by norm_num; omega
  have ham' : a.month < 10 ^ 2 := by norm_num; omega
  have hbm' : b.month < 10 ^ 2 := by norm_num; omega
  have had' : a.day < 10 ^ 2 := by norm_num; omega
  have hbd' : b.day < 10 ^ 2 := by norm_num; omega
  show jsCharsLT (padDigits 4 a.year ++ '-' :: (padDigits 2 a.month ++ '-' :: padDigits 2 a.day))
      (padDigits 4 b.year ++ '-' :: (padDigits 2 b.month ++ '-' :: padDigits 2 b.day)) = true ↔ _
  rw [jsCharsLT_append_eqlen _ _ (by rw [padDigits_length, padDigits_length])]
  have hdash : jsCharsLT ('-' :: (padDigits 2 a.month ++ '-' :: padDigits 2 a.day))
      ('-' :: (padDigits 2 b.month ++ '-' :: padDigits 2 b.day)) =
      jsCharsLT (padDigits 2 a.month ++ '-' :: padDigits 2 a.day)
        (padDigits 2 b.month ++ '-' :: padDigits 2 b.day) := by
    simp [jsCharsLT]
  rw [hdash, jsCharsLT_append_eqlen _ _ (by rw [padDigits_length, padDigits_length])]
  have hdash₂ : jsCharsLT ('-' :: padDigits 2 a.day) ('-' :: padDigits 2 b.day) =
      jsCharsLT (padDigits 2 a.day) (padDigits 2 b.day) := by
    simp [jsCharsLT]
  rw [hdash₂]
  simp only [Bool.or_eq_true, Bool.and_eq_true, decide_eq_true_eq]
  rw [padDigits_lt_iff hay' hby', padDigits_lt_iff ham' hbm', padDigits_lt_iff had' hbd']
  constructor
  · rintro (h | ⟨he, h | ⟨he₂, h⟩⟩)
    · exact Or.inl h
    · exact Or.inr ⟨padDigits_inj hay' hby' he, Or.inl h⟩
    · exact Or.inr ⟨padDigits_inj hay' hby' he,
        Or.inr ⟨padDigits_inj ham' hbm' he₂, h⟩⟩
  · rintro (h | ⟨he, h | ⟨he₂, h⟩⟩)
    · exact Or.inl h
    · exact Or.inr ⟨congrArg (padDigits 4) he, Or.inl h⟩
    · exact Or.inr ⟨congrArg (padDigits 4) he,
        Or.inr ⟨congrArg (padDigits 2) he₂, h⟩⟩

theorem toISO_le_iff {a b : CalDate} (ha : BoundedDate a) (hb : BoundedDate b) :
    (jsStringLE (toISO a) (toISO b) = true) ↔ dateLE a b := by
  rw [dateLE_iff_not_lt]
  show (!jsStringLT (toISO b) (toISO a)) = true ↔ _
  rw [Bool.not_eq_true']
  rw [← toISO_lt_iff hb ha]
  exact Bool.eq_false_iff.trans (by rfl)


/-- `new Date(str)` on a dashboard date string: accepts exactly zero-padded
`YYYY-MM-DD` with an in-range month and day; `none` models the Invalid Date
whose `toISOString()` would throw. -/
def parseISO (s : String) : Option CalDate :=
  match s.data with
  | [y₁, y₂, y₃, y₄, '-', m₁, m₂, '-', d₁, d₂] =>
    if y₁.isDigit && y₂.isDigit && y₃.isDigit && y₄.isDigit &&
        m₁.isDigit && m₂.isDigit && d₁.isDigit && d₂.isDigit then
      let y := digitsVal [y₁, y₂, y₃, y₄]
      let mo := digitsVal [m₁, m₂]
      let da := digitsVal [d₁, d₂]
      if 1 ≤ mo ∧ mo ≤ 12 ∧ 1 ≤ da ∧ da ≤ daysInMonth y mo then some ⟨y, mo, da⟩
      else none
    else none
  | _ => none

theorem toISO_data (d : CalDate) :
    (toISO d).data =
      [Nat.digitChar (d.year / 10 / 10 / 10 % 10), Nat.digitChar (d.year / 10 / 10 % 10),
       Nat.digitChar (d.year / 10 % 10), Nat.digitChar (d.year % 10),
       '-', Nat.digitChar (d.month / 10 % 10), Nat.digitChar (d.month % 10),
       '-', Nat.digitChar (d.day / 10 % 10), Nat.digitChar (d.day % 10)] := rfl

theorem digitVal_digitChar {x : Nat} (h : x < 10) : digitVal (Nat.digitChar x) = x := by
  interval_cases x <;> decide

theorem parseISO_toISO {d : CalDate} (h : ValidDate d) : parseISO (toISO d) = some d := by
  obtain ⟨hm₁, hm₂, hd₁, hd₂, hy₁, hy₂⟩ := h
  have hdm : d.day < 32 := by
    have : daysInMonth d.year d.month < 32 := by
      unfold daysInMonth
      split_ifs <;> omega
    omega
  simp only [parseISO, toISO_data]
  rw [if_pos (by
    simp only [Bool.and_eq_true]
    refine ⟨⟨⟨⟨⟨⟨⟨?_, ?_⟩, ?_⟩, ?_⟩, ?_⟩, ?_⟩, ?_⟩, ?_⟩ <;>
      exact digitChar_isDigit (by omega))]
  have hyv : digitsVal [Nat.digitChar (d.year / 10 / 10 / 10 % 10),
      Nat.digitChar (d.year / 10 / 10 % 10), Nat.digitChar (d.year / 10 % 10),
      Nat.digitChar (d.year % 10)] = d.year := by
    simp only [digitsVal, List.foldl,
      digitVal_digitChar (show d.year / 10 / 10 / 10 % 10 < 10 by omega),
      digitVal_digitChar (show d.year / 10 / 10 % 10 < 10 by omega),
      digitVal_digitChar (show d.year / 10 % 10 < 10 by omega),
      digitVal_digitChar (show d.year % 10 < 10 by omega)]
    omega
  have hmv : digitsVal [Nat.digitChar (d.month / 10 % 10), Nat.digitChar (d.month % 10)] =
      d.month := by
    simp only [digitsVal, List.foldl,
      digitVal_digitChar (show d.month / 10 % 10 < 10 by omega),
      digitVal_digitChar (show d.month % 10 < 10 by omega)]
    omega
  have hdv : digitsVal [Nat.digitChar (d.day / 10 % 10), Nat.digitChar (d.day % 10)] =
      d.day := by
    simp only [digitsVal, List.foldl,
      digitVal_digitChar (show d.day / 10 % 10 < 10 by omega),
      digitVal_digitChar (show d.day % 10 < 10 by omega)]
    omega
  simp only [hyv, hmv, hdv]
  rw [if_pos ⟨hm₁, hm₂, hd₁, hd₂⟩]

theorem daysInMonth_lt_32 (y m : Nat) : daysInMonth y m < 32 := by
  unfold daysInMonth
  split_ifs <;> omega

theorem validDate_bounded {d : CalDate} (h : ValidDate d) : BoundedDate d := by
  obtain ⟨hm₁, hm₂, hd₁, hd₂, hy₁, hy₂⟩ := h
  have h32 := daysInMonth_lt_32 d.year d.month
  exact ⟨by omega, by omega, by omega⟩

theorem bounded_prevDay {d : CalDate} (h : ValidDate d) : BoundedDate (prevDay d) := by
  obtain ⟨hm₁, hm₂, hd₁, hd₂, hy₁, hy₂⟩ := h
  have h32 := daysInMonth_lt_32 d.year d.month
  have h32' := daysInMonth_lt_32 d.year (d.month - 1)
  unfold prevDay BoundedDate
  split_ifs <;> dsimp only <;> refine ⟨by omega, by omega, by omega⟩

theorem bounded_nextDay {d : CalDate} (h : ValidDate d) : BoundedDate (nextDay d) := by
  obtain ⟨hm₁, hm₂, hd₁, hd₂, hy₁, hy₂⟩ := h
  have h32 := daysInMonth_lt_32 d.year d.month
  unfold nextDay BoundedDate
  split_ifs <;> dsimp only <;> refine ⟨by omega, by omega, by omega⟩

/-! ## NASA store (`nasa-store.ts`) and adjacent-date prefetch

`getTodayString()` reads the wall clock; the model threads today's ISO string
(or date) in as a parameter.  `goToPreviousDay`/`goToNextDay` parse the stored
`selectedDate` with `new Date`, shift one day, and re-render; `none` models
the exception `toISOString` raises on an Invalid Date. -/

/-- `ViewMode` union type of the store. -/
inductive ViewMode where
  | date : ViewMode
  | random : ViewMode
deriving DecidableEq, Repr

/-- `NASAPreferences` of the store. -/
structure NASAPreferences where
  viewMode : ViewMode
  randomCount : Nat
  selectedDate : String
deriving DecidableEq, Repr

/-- The persisted slice of the store: favorites and preferences. -/
structure NASAStoreState where
  favorites : List String
  preferences : NASAPreferences
deriving DecidableEq, Repr

/-- `FIRST_APOD_DATE` constant. -/
def FIRST_APOD_DATE : String := "1995-06-16"

/-- `setSelectedDate`. -/
def setSelectedDate (st : NASAStoreState) (date : String) : NASAStoreState :=
  ⟨st.favorites, ⟨st.preferences.viewMode, st.preferences.randomCount, date⟩⟩

/-- `isToday`: string equality of `selectedDate` with `getTodayString()`. -/
def isToday (todayStr : String) (st : NASAStoreState) : Bool :=
  st.preferences.selectedDate == todayStr

/-- `isFirstAPOD`. -/
def isFirstAPOD (st : NASAStoreState) : Bool :=
  st.preferences.selectedDate == FIRST_APOD_DATE

/-- `canGoNext`. -/
def canGoNext (todayStr : String) (st : NASAStoreState) : Bool := !isToday todayStr st

/-- `canGoPrevious`. -/
def canGoPrevious (st : NASAStoreState) : Bool := !isFirstAPOD st

/-- `goToPreviousDay`: parse `selectedDate`, subtract a day, re-render — with
no guard of any kind. -/
def goToPreviousDay (st : NASAStoreState) : Option NASAStoreState :=
  (parseISO st.preferences.selectedDate).map fun d =>
    setSelectedDate st (toISO (prevDay d))

/-- `goToNextDay`: guarded by `canGoNext()`; otherwise the state is left
unchanged. -/
def goToNextDay (todayStr : String) (st : NASAStoreState) : Option NASAStoreState :=
  if canGoNext todayStr st then
    (parseISO st.preferences.selectedDate).map fun d =>
      setSelectedDate st (toISO (nextDay d))
  else some st

/-- `prefetchAdjacent` of `usePrefetchAdjacentDates(currentDate)`: the list of
date strings it prefetches, in order — yesterday only when it is not before
`'1995-06-16'` (a JS string comparison), tomorrow only when it does not
exceed today's string. -/
def prefetchAdjacent (todayStr : String) (currentDate : String) : Option (List String) :=
  (parseISO currentDate).map fun current =>
    (if jsStringLE "1995-06-16" (toISO (prevDay current)) then [toISO (prevDay current)]
     else []) ++
    (if jsStringLE (toISO (nextDay current)) todayStr then [toISO (nextDay current)]
     else [])

/-! ## Favorites (`addToFavorites` / `removeFromFavorites` / `toggleFavorite`) -/

/-- `addToFavorites`: filter the date out, then append it. -/
def addToFavorites (date : String) (favorites : List String) : List String :=
  (favorites.filter fun d => d != date) ++ [date]

/-- `removeFromFavorites`: filter the date out. -/
def removeFromFavorites (date : String) (favorites : List String) : List String :=
  favorites.filter fun d => d != date

/-- `isFavorite`: `favorites.includes(date)`. -/
def isFavorite (date : String) (favorites : List String) : Bool :=
  favorites.contains date

/-- `toggleFavorite`: remove when present, add when absent. -/
def toggleFavorite (date : String) (favorites : List String) : List String :=
  if isFavorite date favorites then removeFromFavorites date favorites
  else addToFavorites date favorites

/-- One store action touching the favorites list. -/
inductive FavOp where
  | add (date : String)
  | remove (date : String)
  | toggle (date : String)

/-- Apply one favorites action to the list. -/
def applyFavOp (favorites : List String) : FavOp → List String
  | .add d => addToFavorites d favorites
  | .remove d => removeFromFavorites d favorites
  | .toggle d => toggleFavorite d favorites

/-- Run a sequence of favorites actions from the store's initial `[]`. -/
def applyFavOps (ops : List FavOp) : List String := ops.foldl applyFavOp []

theorem addToFavorites_nodup {favorites : List String} (h : favorites.Nodup)
    (date : String) : (addToFavorites date favorites).Nodup := by
  unfold addToFavorites
  rw [List.nodup_append]
  refine ⟨h.filter _, List.nodup_singleton date, ?_⟩
  intro x hx hx'
  rw [List.mem_singleton] at hx'
  subst hx'
  have := (List.mem_filter.mp hx).2
  simp at this

theorem removeFromFavorites_nodup {favorites : List String} (h : favorites.Nodup)
    (date : String) : (removeFromFavorites date favorites).Nodup := h.filter _

theorem toggleFavorite_nodup {favorites : List String} (h : favorites.Nodup)
    (date : String) : (toggleFavorite date favorites).Nodup := by
  unfold toggleFavorite
  split_ifs
  · exact removeFromFavorites_nodup h date
  · exact addToFavorites_nodup h date

theorem applyFavOp_nodup {favorites : List String} (h : favorites.Nodup) (op : FavOp) :
    (applyFavOp favorites op).Nodup := by
  cases op with
  | add d => exact addToFavorites_nodup h d
  | remove d => exact removeFromFavorites_nodup h d
  | toggle d => exact toggleFavorite_nodup h d

theorem foldl_applyFavOp_nodup :
    ∀ (ops : List FavOp) (favorites : List String), favorites.Nodup →
      (ops.foldl applyFavOp favorites).Nodup := by
  intro ops
  induction ops with
  | nil => intro favorites h; exact h
  | cons op rest ih =>
    intro favorites h
    exact ih _ (applyFavOp_nodup h op)

theorem mem_addToFavorites_self (date : String) (favorites : List String) :
    date ∈ addToFavorites date favorites := by
  unfold addToFavorites
  exact List.mem_append.mpr (Or.inr (List.mem_singleton.mpr rfl))

theorem not_mem_removeFromFavorites_self (date : String) (favorites : List String) :
    date ∉ removeFromFavorites date favorites := by
  intro h
  have := (List.mem_filter.mp h).2
  simp at this

theorem mem_addToFavorites_iff {e date : String} (h : e ≠ date) (favorites : List String) :
    e ∈ addToFavorites date favorites ↔ e ∈ favorites := by
  unfold addToFavorites
  rw [List.mem_append, List.mem_singleton, List.mem_filter]
  simp [h, bne_iff_ne]

theorem mem_removeFromFavorites_iff {e date : String} (h : e ≠ date)
    (favorites : List String) :
    e ∈ removeFromFavorites date favorites ↔ e ∈ favorites := by
  unfold removeFromFavorites
  rw [List.mem_filter]
  simp [h, bne_iff_ne]

theorem isFavorite_iff_mem (date : String) (favorites : List String) :
    isFavorite date favorites = true ↔ date ∈ favorites := by
  unfold isFavorite
  exact List.elem_iff

/-! ## Claims about the store and prefetch policy -/

/-- **C9**: the favorites record is a set mutated only by the toggle
operations — every sequence of add/remove/toggle actions from the empty list
keeps the list duplicate-free, and `toggleFavorite d` flips the membership of
exactly `d` while leaving every other date's membership unchanged. -/
theorem favorites_set_invariant (ops : List FavOp) (favorites : List String)
    (d e : String) :
    (applyFavOps ops).Nodup ∧
    (d ∈ toggleFavorite d favorites ↔ d ∉ favorites) ∧
    (e ≠ d → (e ∈ toggleFavorite d favorites ↔ e ∈ favorites)) := by
  refine ⟨foldl_applyFavOp_nodup ops [] List.nodup_nil, ?_, ?_⟩
  · unfold toggleFavorite
    split_ifs with h
    · rw [isFavorite_iff_mem] at h
      simp [h, not_mem_removeFromFavorites_self]
    · rw [isFavorite_iff_mem] at h
      constructor
      · intro _; exact h
      · intro _; exact mem_addToFavorites_self d favorites
  · intro hne
    unfold toggleFavorite
    split_ifs
    · exact mem_removeFromFavorites_iff hne favorites
    · exact mem_addToFavorites_iff hne favorites

/-- Witness for C9 on a concrete action sequence and toggle. -/
theorem favorites_set_invariant_witness :
    (applyFavOps [.add "2024-01-01", .toggle "2024-01-02", .toggle "2024-01-01"]).Nodup ∧
    ("2024-01-02" ∈ toggleFavorite "2024-01-02" ["2024-01-01"] ↔
      "2024-01-02" ∉ ["2024-01-01"]) ∧
    ("2024-01-01" ∈ toggleFavorite "2024-01-02" ["2024-01-01"] ↔
      "2024-01-01" ∈ ["2024-01-01"]) := by
  have h := favorites_set_invariant
    [.add "2024-01-01", .toggle "2024-01-02", .toggle "2024-01-01"]
    ["2024-01-01"] "2024-01-02" "2024-01-01"
  exact ⟨h.1, h.2.1, h.2.2 (by decide)⟩

/-- **C4** (counterexample): from the floor state
`selectedDate = '1995-06-16'`, `goToPreviousDay` **does** move `selectedDate`
before the floor — to `'1995-06-15'` — even though `canGoPrevious` is false
there, so the claimed lower clamp does not hold. -/
theorem goToPreviousDay_floor_cex :
    goToPreviousDay ⟨[], ⟨.date, 1, "1995-06-16"⟩⟩ =
      some ⟨[], ⟨.date, 1, "1995-06-15"⟩⟩ ∧
    jsStringLT "1995-06-15" "1995-06-16" = true ∧
    canGoPrevious ⟨[], ⟨.date, 1, "1995-06-16"⟩⟩ = false := by
  refine ⟨?_, by decide, by decide⟩
  show (parseISO "1995-06-16").map _ = _
  rw [show parseISO "1995-06-16" = some ⟨1995, 6, 16⟩ from by decide, Option.map_some']
  rfl

/-- **C4** (amended): the date navigation clamps only at the top — at today's
date `goToNextDay` leaves the state unchanged, while `goToPreviousDay` applies
no floor guard: at `FIRST_APOD_DATE` it moves `selectedDate` to
`'1995-06-15'`, one day before the floor, even though `canGoPrevious` reports
false there. -/
theorem nasaStore_navigation_amended (todayStr : String) (st : NASAStoreState) :
    (st.preferences.selectedDate = todayStr → goToNextDay todayStr st = some st) ∧
    (st.preferences.selectedDate = FIRST_APOD_DATE →
      goToPreviousDay st = some (setSelectedDate st "1995-06-15") ∧
      canGoPrevious st = false) := by
  constructor
  · intro h
    unfold goToNextDay canGoNext isToday
    rw [h]
    simp
  · intro h
    refine ⟨?_, ?_⟩
    · unfold goToPreviousDay
      rw [h, show parseISO FIRST_APOD_DATE = some ⟨1995, 6, 16⟩ from by decide,
        Option.map_some']
      rfl
    · unfold canGoPrevious isFirstAPOD
      rw [h]
      simp

/-- Witness for the amended C4 at the floor state, with today at the floor. -/
theorem nasaStore_navigation_amended_witness :
    goToNextDay "1995-06-16" ⟨[], ⟨.date, 1, "1995-06-16"⟩⟩ =
      some ⟨[], ⟨.date, 1, "1995-06-16"⟩⟩ ∧
    goToPreviousDay ⟨[], ⟨.date, 1, "1995-06-16"⟩⟩ =
      some (setSelectedDate ⟨[], ⟨.date, 1, "1995-06-16"⟩⟩ "1995-06-15") ∧
    canGoPrevious ⟨[], ⟨.date, 1, "1995-06-16"⟩⟩ = false := by
  have h := nasaStore_navigation_amended "1995-06-16" ⟨[], ⟨.date, 1, "1995-06-16"⟩⟩
  exact ⟨h.1 rfl, (h.2 rfl).1, (h.2 rfl).2⟩

/-- **C3** (counterexample): with the current date at the floor
`'1995-06-16'`, the prefetch does **not** attempt the previous day
`'1995-06-15'` (the `>= '1995-06-16'` guard rejects it), refuting "the
previous day is always attempted"; only the next day is prefetched. -/
theorem prefetchAdjacent_floor_cex :
    prefetchAdjacent "2026-10-11" "1995-06-16" = some ["1995-06-17"] ∧
    "1995-06-15" ∉ (["1995-06-17"] : List String) := by
  refine ⟨?_, by decide⟩
  show (parseISO "1995-06-16").map _ = _
  rw [show parseISO "1995-06-16" = some ⟨1995, 6, 16⟩ from by decide, Option.map_some']
  decide

/-- **C3** (amended): for every valid current date and today, the previous
day is prefetched iff it is not before the first-APOD floor `1995-06-16`, and
the next day is prefetched iff it does not exceed today — both stated in
calendar order, matching the string comparisons the hook performs. -/
theorem prefetchAdjacent_amended (today current : CalDate)
    (ht : ValidDate today) (hc : ValidDate current) :
    prefetchAdjacent (toISO today) (toISO current) =
      some ((if dateLE ⟨1995, 6, 16⟩ (prevDay current) then [toISO (prevDay current)]
             else []) ++
        (if dateLE (nextDay current) today then [toISO (nextDay current)] else [])) := by
  unfold prefetchAdjacent
  rw [parseISO_toISO hc, Option.map_some']
  have h₁ : jsStringLE "1995-06-16" (toISO (prevDay current)) = true ↔
      dateLE ⟨1995, 6, 16⟩ (prevDay current) := by
    rw [show ("1995-06-16" : String) = toISO ⟨1995, 6, 16⟩ from rfl]
    exact toISO_le_iff ⟨by norm_num, by norm_num, by norm_num⟩ (bounded_prevDay hc)
  have h₂ : jsStringLE (toISO (nextDay current)) (toISO today) = true ↔
      dateLE (nextDay current) today :=
    toISO_le_iff (bounded_nextDay hc) (validDate_bounded ht)
  rw [if_congr h₁ rfl rfl, if_congr h₂ rfl rfl]

/-- Witness for the amended C3 at the floor date with a later today. -/
theorem prefetchAdjacent_amended_witness :
    prefetchAdjacent (toISO ⟨2026, 10, 11⟩) (toISO ⟨1995, 6, 16⟩) =
      some ((if dateLE ⟨1995, 6, 16⟩ (prevDay ⟨1995, 6, 16⟩)
             then [toISO (prevDay ⟨1995, 6, 16⟩)] else []) ++
        (if dateLE (nextDay ⟨1995, 6, 16⟩) ⟨2026, 10, 11⟩
         then [toISO (nextDay ⟨1995, 6, 16⟩)] else [])) :=
  prefetchAdjacent_amended ⟨2026, 10, 11⟩ ⟨1995, 6, 16⟩ (by decide) (by decide)
